import Mathlib

/-!
Verification of the pi-telemetry routing resolver and fleet aggregator.

This file gives a shallow embedding, in Lean 4, of the algorithmic core of
the repository:

* `src/extensions/pi-telemetry.ts` — the multiplexer ancestry detector
  (`detectMuxFromAncestry`), the session-name extractors
  (`extractZellijSession`, `extractTmuxSession`), the zellij tab matcher
  (`getZellijRouting`), the routing reconciler (the pure core of
  `getRoutingSummary`), and the heartbeat republisher (`startHeartbeat`).
* the aggregator script (unnamed source file) — file normalization
  (`normalizeInstance`), the alive/stale classification, the qualifying
  set, counts, the aggregate verdict, session grouping and the pid lookup.

JavaScript numbers that the code keeps finite are modeled as `Int`
(a missing or non-finite value is `Option.none` where the code checks
`Number.isFinite`), strings as `String`, and JavaScript truthiness of the
string/number fields that the code branches on is spelled out explicitly
at each use site.  External effects (the `ps` snapshot, `process.kill`
liveness probes, environment variables, external query output) enter as
explicit parameters, which is exactly the data the TypeScript reads.
-/

/- ### JavaScript string helpers -/

/-- Characters of the JavaScript regex class `\s` (the ASCII part; the
command lines and paths handled by the code are ASCII). -/
def jsWhitespaceChar (c : Char) : Bool :=
  c == ' ' || c == '\t' || c == '\n' || c == '\r' || c == '\x0b' || c == '\x0c'

/-- Embeds `String.prototype.toLowerCase` (over the ASCII strings the code
handles), written over the character list so it evaluates by kernel
reduction. -/
def strToLower (s : String) : String :=
  String.mk (s.toList.map Char.toLower)

/-- Embeds `s.startsWith(pre)` over character lists. -/
def strStartsWith (s pre : String) : Bool :=
  pre.toList.isPrefixOf s.toList

/-- Embeds `s.endsWith(post)` over character lists. -/
def strEndsWith (s post : String) : Bool :=
  post.toList.reverse.isPrefixOf s.toList.reverse

/-- Does `w` occur as a contiguous subsequence of `s`?  Embeds
`String.prototype.includes`. -/
def listContainsSeq (w : List Char) : List Char → Bool
  | [] => w.isEmpty
  | c :: rest => w.isPrefixOf (c :: rest) || listContainsSeq w rest

/-- Embeds `hay.includes(needle)` on strings. -/
def strIncludes (hay needle : String) : Bool :=
  listContainsSeq needle.toList hay.toList

/-- The `(\s|$)` part of the multiplexer signature regexes: the rest of the
string is empty or starts with whitespace. -/
def afterBoundaryOk (t : List Char) : Bool :=
  match t with
  | [] => true
  | c :: _ => jsWhitespaceChar c

/-- Scan of `s` for an occurrence of `w` preceded by start-of-string,
whitespace, or a slash, and followed by whitespace or end-of-string.
`prevOk` says whether the current position is preceded by a valid
boundary. -/
def wordScan (w : List Char) : List Char → Bool → Bool
  | s, prevOk =>
    (prevOk && w.isPrefixOf s && afterBoundaryOk (s.drop w.length)) ||
      match s with
      | [] => false
      | c :: rest => wordScan w rest (jsWhitespaceChar c || c == '/')

/-- Embeds the test of a regex of the shape `/(^|\s|\/)word(\s|$)/` against
a string, as used for the three multiplexer signatures. -/
def jsWordMatch (w s : String) : Bool :=
  wordScan w.toList s.toList true

/-- Embeds `s.split(/\s+/).filter(Boolean)`: split into maximal runs of
non-whitespace characters. -/
def splitWsAux : List Char → List Char → List String
  | acc, [] => if acc.isEmpty then [] else [String.mk acc.reverse]
  | acc, c :: rest =>
    if jsWhitespaceChar c then
      if acc.isEmpty then splitWsAux [] rest
      else String.mk acc.reverse :: splitWsAux [] rest
    else splitWsAux (c :: acc) rest

/-- Whitespace-splitting of a command-line string. -/
def splitWs (s : String) : List String :=
  splitWsAux [] s.toList

/-- Embeds `String.prototype.trim` (over the same whitespace class). -/
def jsTrim (s : String) : String :=
  String.mk ((s.toList.dropWhile jsWhitespaceChar).reverse.dropWhile jsWhitespaceChar).reverse

/-- Embeds `target.split(":", 1)[0]`: the piece before the first colon. -/
def takeUntilColon (s : String) : String :=
  String.mk (s.toList.takeWhile (fun c => c != ':'))

/-- Node's `path.basename` (posix): last path segment, ignoring trailing
slashes. -/
def jsPathBasename (p : String) : String :=
  let cs := p.toList
  let stripped := (cs.reverse.dropWhile (fun c => c == '/')).reverse
  if stripped.isEmpty then
    if cs.isEmpty then "" else "/"
  else
    String.mk ((stripped.reverse.takeWhile (fun c => c != '/')).reverse)

/- ### Data model of the routing resolver -/

/-- Embeds `type Activity = "working" | "waiting_input" | "unknown"`. -/
inductive Activity where
  | working
  | waiting_input
  | unknown
deriving DecidableEq, Repr

/-- Embeds `type MuxType = "tmux" | "zellij" | "screen"`. -/
inductive MuxType where
  | tmux
  | zellij
  | screen
deriving DecidableEq, Repr

/-- One row of the `ps -axo pid=,ppid=,comm=,tty=,args=` snapshot
(`type PsRow`). -/
structure PsRow where
  pid : Int
  ppid : Int
  comm : String
  tty : String
  args : String
deriving DecidableEq, Repr

/-- Embeds `new Map(rows.map((r) => [r.pid, r])).get(k)`: last row wins on
duplicate pids. -/
def lookupPid (rows : List PsRow) (k : Int) : Option PsRow :=
  rows.reverse.find? (fun r => r.pid == k)

/-- Embeds `extractZellijSession` scanning of the split argument vector. -/
def zellijSessionFromParts : List String → Option String
  | p :: next :: rest =>
    if p == "-s" || p == "--session" then some next
    else if p == "--server" then some (jsPathBasename next)
    else zellijSessionFromParts (next :: rest)
  | _ => none

/-- Embeds `extractZellijSession(args)` from `src/extensions/pi-telemetry.ts`. -/
def extractZellijSession (args : String) : Option String :=
  zellijSessionFromParts (splitWs args)

/-- Embeds `extractTmuxSession` scanning of the split argument vector. -/
def tmuxSessionFromParts : List String → Option String
  | [] => none
  | p :: rest =>
    if p == "-t" || p == "--target" then
      match rest with
      | next :: _ =>
        let target := jsTrim next
        if target != "" then some (takeUntilColon target)
        else tmuxSessionFromParts rest
      | [] => tmuxSessionFromParts rest
    else if strStartsWith p ("-t") && p.length > 2 then
      let target := jsTrim (String.mk (p.toList.drop 2))
      if target != "" then some (takeUntilColon target)
      else tmuxSessionFromParts rest
    else tmuxSessionFromParts rest

/-- Embeds `extractTmuxSession(args)` from `src/extensions/pi-telemetry.ts`. -/
def extractTmuxSession (args : String) : Option String :=
  tmuxSessionFromParts (splitWs args)

/-- The zellij signature tested at each ancestor:
`comm.includes("zellij") || /(^|\s|\/)zellij(\s|$)/.test(low)`. -/
def zellijSig (row : PsRow) : Bool :=
  strIncludes (strToLower row.comm) ("zellij") || jsWordMatch ("zellij") (strToLower row.args)

/-- The tmux signature tested at each ancestor. -/
def tmuxSig (row : PsRow) : Bool :=
  strIncludes (strToLower row.comm) ("tmux") || jsWordMatch ("tmux") (strToLower row.args)

/-- The screen signature tested at each ancestor. -/
def screenSig (row : PsRow) : Bool :=
  strIncludes (strToLower row.comm) ("screen") || jsWordMatch ("screen") (strToLower row.args)

/-- Result of `detectMuxFromAncestry`: `{ mux?, muxSession?, muxPid? }`. -/
structure AncestryResult where
  mux : Option MuxType := none
  muxSession : Option String := none
  muxPid : Option Int := none
deriving DecidableEq, Repr, Inhabited

/-- The body of the ancestry loop at one row: the three signature tests in
the order the source performs them (zellij, then tmux, then screen),
with the family-specific session extraction. -/
def classifyMuxRow (row : PsRow) : Option AncestryResult :=
  if zellijSig row then
    some { mux := some MuxType.zellij, muxSession := extractZellijSession row.args, muxPid := some row.pid }
  else if tmuxSig row then
    some { mux := some MuxType.tmux, muxSession := extractTmuxSession row.args, muxPid := some row.pid }
  else if screenSig row then
    some { mux := some MuxType.screen, muxSession := none, muxPid := some row.pid }
  else none

/-- The `while (cur && !seen.has(cur))` loop of `detectMuxFromAncestry`,
with an explicit fuel parameter.  The loop guard reads: `cur` is truthy
(a pid of `0` is falsy in JavaScript) and not yet visited.  A fuel of
`byPid.length + 1` is enough for the loop to run to its natural end
(proved below), so the fueled function is an exact embedding. -/
def detectMuxAux (byPid : List PsRow) : Nat → List Int → Int → AncestryResult
  | 0, _, _ => {}
  | fuel + 1, seen, cur =>
    if cur = 0 ∨ cur ∈ seen then {}
    else
      match lookupPid byPid cur with
      | none => {}
      | some row =>
        match classifyMuxRow row with
        | some res => res
        | none => detectMuxAux byPid fuel (cur :: seen) row.ppid

/-- Embeds `detectMuxFromAncestry(pid, byPid)`: the walk starts at
`byPid.get(pid)?.ppid`, i.e. at the parent of the starting pid. -/
def detectMuxFromAncestry (pid : Int) (byPid : List PsRow) : AncestryResult :=
  match lookupPid byPid pid with
  | none => {}
  | some selfRow => detectMuxAux byPid (byPid.length + 1) [] selfRow.ppid

/-- Number of pid entries of the table not yet visited: the termination
measure of the ancestry walk. -/
def pendingPids (byPid : List PsRow) (seen : List Int) : Nat :=
  ((byPid.map (fun r => r.pid)).filter (fun p => decide (p ∉ seen))).length

/- ### Lemmas about the ancestry walk -/

theorem lookupPid_mem {rows : List PsRow} {k : Int} {r : PsRow}
    (h : lookupPid rows k = some r) : r ∈ rows ∧ r.pid = k := by
  unfold lookupPid at h
  have hm := List.mem_of_find?_eq_some h
  have hp := List.find?_some h
  refine ⟨List.mem_reverse.mp hm, ?_⟩
  simpa using hp

theorem filter_length_mono (p q : Int → Bool) (h : ∀ x, p x = true → q x = true) :
    ∀ l : List Int, (l.filter p).length ≤ (l.filter q).length := by
  intro l
  induction l with
  | nil => simp
  | cons a t ih =>
    cases hp : p a with
    | false =>
      cases hq : q a with
      | false => simp [List.filter_cons, hp, hq]; omega
      | true => simp [List.filter_cons, hp, hq]; omega
    | true =>
      have hq := h a hp
      simp [List.filter_cons, hp, hq]
      omega

theorem filter_not_mem_cons_lt (c : Int) (seen : List Int) (hc : c ∉ seen) :
    ∀ l : List Int, c ∈ l →
      (l.filter (fun p => decide (p ∉ c :: seen))).length <
        (l.filter (fun p => decide (p ∉ seen))).length := by
  intro l hl
  induction l with
  | nil => cases hl
  | cons a t ih =>
    by_cases hac : a = c
    · subst hac
      have hmono : ∀ x, (decide (x ∉ a :: seen)) = true → (decide (x ∉ seen)) = true := by
        intro x hx
        simp only [decide_eq_true_eq, List.mem_cons, not_or] at hx ⊢
        exact hx.2
      have hle := filter_length_mono _ _ hmono t
      have e1 : (a :: t).filter (fun p => decide (p ∉ a :: seen)) =
          t.filter (fun p => decide (p ∉ a :: seen)) :=
        List.filter_cons_of_neg (by simp)
      have e2 : (a :: t).filter (fun p => decide (p ∉ seen)) =
          a :: t.filter (fun p => decide (p ∉ seen)) :=
        List.filter_cons_of_pos (by simpa using hc)
      rw [e1, e2, List.length_cons]
      omega
    · have hmem : c ∈ t := by
        rcases List.mem_cons.mp hl with h | h
        · exact absurd h.symm hac
        · exact h
      by_cases hpa : a ∈ seen
      · have e1 : (a :: t).filter (fun p => decide (p ∉ c :: seen)) =
            t.filter (fun p => decide (p ∉ c :: seen)) :=
          List.filter_cons_of_neg (by simp [hpa])
        have e2 : (a :: t).filter (fun p => decide (p ∉ seen)) =
            t.filter (fun p => decide (p ∉ seen)) :=
          List.filter_cons_of_neg (by simp [hpa])
        rw [e1, e2]
        exact ih hmem
      · have e1 : (a :: t).filter (fun p => decide (p ∉ c :: seen)) =
            a :: t.filter (fun p => decide (p ∉ c :: seen)) :=
          List.filter_cons_of_pos (by simp [hpa, hac])
        have e2 : (a :: t).filter (fun p => decide (p ∉ seen)) =
            a :: t.filter (fun p => decide (p ∉ seen)) :=
          List.filter_cons_of_pos (by simp [hpa])
        rw [e1, e2, List.length_cons, List.length_cons]
        exact Nat.succ_lt_succ (ih hmem)

theorem detectMuxAux_fuel_irrel (byPid : List PsRow) :
    ∀ f g seen cur, pendingPids byPid seen < f → pendingPids byPid seen < g →
      detectMuxAux byPid f seen cur = detectMuxAux byPid g seen cur := by
  intro f
  induction f with
  | zero => intro g seen cur h1 _; exact absurd h1 (Nat.not_lt_zero _)
  | succ n ih =>
    intro g seen cur h1 h2
    cases g with
    | zero => exact absurd h2 (Nat.not_lt_zero _)
    | succ m =>
      show detectMuxAux byPid (n + 1) seen cur = detectMuxAux byPid (m + 1) seen cur
      simp only [detectMuxAux]
      by_cases hstop : cur = 0 ∨ cur ∈ seen
      · simp [hstop]
      · simp only [if_neg hstop]
        split
        · rfl
        · rename_i row hlook
          split
          · rfl
          · rename_i hcls
            have hmem : cur ∈ byPid.map (fun r => r.pid) := by
              obtain ⟨hrmem, hrpid⟩ := lookupPid_mem hlook
              exact List.mem_map.mpr ⟨row, hrmem, hrpid⟩
            have hnot : cur ∉ seen := fun h => hstop (Or.inr h)
            have hdec : pendingPids byPid (cur :: seen) < pendingPids byPid seen :=
              filter_not_mem_cons_lt cur seen hnot _ hmem
            exact ih m (cur :: seen) row.ppid (by omega) (by omega)

theorem detectMuxAux_no_sig (byPid : List PsRow)
    (h : ∀ r ∈ byPid, classifyMuxRow r = none) :
    ∀ fuel seen cur, detectMuxAux byPid fuel seen cur = {} := by
  intro fuel
  induction fuel with
  | zero => intro seen cur; rfl
  | succ n ih =>
    intro seen cur
    simp only [detectMuxAux]
    by_cases hstop : cur = 0 ∨ cur ∈ seen
    · simp [hstop]
    · simp only [if_neg hstop]
      split
      · rfl
      · rename_i row hlook
        have hrow : classifyMuxRow row = none := h row (lookupPid_mem hlook).1
        rw [hrow]
        exact ih (cur :: seen) row.ppid

/- ### C4 and C6: properties of the ancestry walk -/

/-- C4: for every process table (cyclic parent links included) and every
starting pid the ancestry walk terminates — a fuel of `byPid.length + 1`
is already past its natural stopping point, so any larger fuel yields the
same result — and if no row of the table matches any multiplexer
signature the walk reports no multiplexer at all (`mux = none`).
(The further clause of the claim, that the starting process itself is
never classified, fails on a self-parented row; see the counterexample.) -/
theorem C4_walk_termination (byPid : List PsRow) (pid : Int) :
    (∀ cur fuel, byPid.length + 1 ≤ fuel →
        detectMuxAux byPid fuel [] cur = detectMuxAux byPid (byPid.length + 1) [] cur)
    ∧ ((∀ r ∈ byPid, classifyMuxRow r = none) →
        detectMuxFromAncestry pid byPid = { mux := none, muxSession := none, muxPid := none }) := by
  have hb : pendingPids byPid [] ≤ byPid.length := by
    unfold pendingPids
    exact le_trans (List.length_filter_le _ _) (le_of_eq (List.length_map _ _))
  constructor
  · intro cur fuel hf
    exact detectMuxAux_fuel_irrel byPid fuel (byPid.length + 1) [] cur (by omega) (by omega)
  · intro h
    unfold detectMuxFromAncestry
    cases hlook : lookupPid byPid pid with
    | none => rfl
    | some row => exact detectMuxAux_no_sig byPid h _ _ _

/-- C4 counterexample: on a table whose only row is its own parent
(pid 5, ppid 5, command `tmux`), the walk starting at pid 5 classifies
the starting process itself as its own multiplexer (`muxPid = 5`),
refuting the claim's "never classifying the starting process itself". -/
theorem C4_walk_counterexample :
    detectMuxFromAncestry 5 [{ pid := 5, ppid := 5, comm := "tmux", tty := "?", args := "tmux" }] =
      { mux := some MuxType.tmux, muxSession := none, muxPid := some 5 } := by decide

/-- C4 witness: the termination and no-match conclusions evaluated on a
concrete one-row table with no multiplexer in it. -/
theorem C4_walk_termination_witness :
    detectMuxAux [{ pid := 3, ppid := 2, comm := "bash", tty := "t", args := "-bash" }] 9 [] 2 =
      detectMuxAux [{ pid := 3, ppid := 2, comm := "bash", tty := "t", args := "-bash" }] 2 [] 2
    ∧ detectMuxFromAncestry 3 [{ pid := 3, ppid := 2, comm := "bash", tty := "t", args := "-bash" }] =
      { mux := none, muxSession := none, muxPid := none } :=
  ⟨(C4_walk_termination [{ pid := 3, ppid := 2, comm := "bash", tty := "t", args := "-bash" }] 3).1
      2 9 (by decide),
   (C4_walk_termination [{ pid := 3, ppid := 2, comm := "bash", tty := "t", args := "-bash" }] 3).2
      (by decide)⟩

/-- C6 (amended): at the first ancestor examined by the walk the three
signatures are tested in the fixed order zellij (family B), then tmux
(family A), then screen, and the first match ends the walk with that
classification; in particular an ancestor matching both the zellij and
the tmux signatures is classified as zellij, not tmux. -/
theorem C6_signature_priority (byPid : List PsRow) (pid : Int) (selfRow row : PsRow)
    (hself : lookupPid byPid pid = some selfRow)
    (hppid : ¬ selfRow.ppid = 0)
    (hrow : lookupPid byPid selfRow.ppid = some row) :
    (zellijSig row = true →
      detectMuxFromAncestry pid byPid =
        { mux := some MuxType.zellij, muxSession := extractZellijSession row.args,
          muxPid := some row.pid })
    ∧ (zellijSig row = false → tmuxSig row = true →
      detectMuxFromAncestry pid byPid =
        { mux := some MuxType.tmux, muxSession := extractTmuxSession row.args,
          muxPid := some row.pid })
    ∧ (zellijSig row = false → tmuxSig row = false → screenSig row = true →
      detectMuxFromAncestry pid byPid =
        { mux := some MuxType.screen, muxSession := none, muxPid := some row.pid }) := by
  have hbase : detectMuxFromAncestry pid byPid =
      detectMuxAux byPid (byPid.length + 1) [] selfRow.ppid := by
    unfold detectMuxFromAncestry
    rw [hself]
  have hone : detectMuxAux byPid (byPid.length + 1) [] selfRow.ppid =
      match classifyMuxRow row with
      | some res => res
      | none => detectMuxAux byPid byPid.length [selfRow.ppid] row.ppid := by
    simp only [detectMuxAux]
    rw [if_neg (by simp [hppid]), hrow]
  refine ⟨?_, ?_, ?_⟩
  · intro hz
    rw [hbase, hone]
    simp [classifyMuxRow, hz]
  · intro hz ht
    rw [hbase, hone]
    simp [classifyMuxRow, hz, ht]
  · intro hz ht hs
    rw [hbase, hone]
    simp [classifyMuxRow, hz, ht, hs]

/-- C6 counterexample: an ancestor whose argument string matches both the
tmux and the zellij signatures is classified as zellij (family B), not as
family A as the claim's priority order would require. -/
theorem C6_priority_counterexample :
    zellijSig { pid := 1, ppid := 0, comm := "foo", tty := "t", args := "tmux zellij" } = true
    ∧ tmuxSig { pid := 1, ppid := 0, comm := "foo", tty := "t", args := "tmux zellij" } = true
    ∧ (detectMuxFromAncestry 10
        [{ pid := 10, ppid := 1, comm := "pi", tty := "t", args := "pi" },
         { pid := 1, ppid := 0, comm := "foo", tty := "t", args := "tmux zellij" }]).mux
        = some MuxType.zellij := by decide

/-- C6 witness: the amended priority rule evaluated on a concrete table
whose ancestor row matches both signatures. -/
theorem C6_signature_priority_witness :
    detectMuxFromAncestry 10
        [{ pid := 10, ppid := 1, comm := "pi", tty := "t", args := "pi" },
         { pid := 1, ppid := 0, comm := "foo", tty := "t", args := "tmux zellij" }] =
      { mux := some MuxType.zellij, muxSession := none, muxPid := some 1 } :=
  (C6_signature_priority
      [{ pid := 10, ppid := 1, comm := "pi", tty := "t", args := "pi" },
       { pid := 1, ppid := 0, comm := "foo", tty := "t", args := "tmux zellij" }]
      10
      { pid := 10, ppid := 1, comm := "pi", tty := "t", args := "pi" }
      { pid := 1, ppid := 0, comm := "foo", tty := "t", args := "tmux zellij" }
      (by decide) (by decide) (by decide)).1 (by decide)

/- ### Routing reconciler (`getRoutingSummary`, lines 512-573) -/

/-- The six environment variables read into `routing.env`. `none` models an
unset variable; an empty string is set but falsy in JavaScript. -/
structure EnvSnapshot where
  tmux : Option String := none
  tmuxPane : Option String := none
  zellij : Option String := none
  zellijSessionName : Option String := none
  zellijPaneId : Option String := none
  zellijTabName : Option String := none
deriving DecidableEq, Repr

/-- JavaScript truthiness of a possibly-missing string. -/
def truthyStr : Option String → Bool
  | some s => s ≠ ""
  | none => false

/-- The `routing.source` values `"env" | "ancestry" | "mixed" | "none"`.
The specification calls these environment, ancestry, both-agree and
none respectively. -/
inductive EvidenceSource where
  | env
  | ancestry
  | mixed
  | none
deriving DecidableEq, Repr

/-- The reconciled multiplexer fields of the routing record: `mux`,
`muxSession`, `muxPid` and `source`. -/
structure RoutingCore where
  mux : Option MuxType
  muxSession : Option String
  muxPid : Option Int
  source : EvidenceSource
deriving DecidableEq, Repr

/-- Embeds `envMux` of `getRoutingSummary`: zellij when `ZELLIJ` or
`ZELLIJ_SESSION_NAME` is truthy, else tmux when `TMUX` is truthy. -/
def envMuxOf (env : EnvSnapshot) : Option MuxType :=
  if truthyStr env.zellij || truthyStr env.zellijSessionName then some MuxType.zellij
  else if truthyStr env.tmux then some MuxType.tmux
  else none

/-- Embeds `envSession` of `getRoutingSummary`; `tmuxClientSession` is the result
of the external `tmux display-message -p` query (already `undefined`
rather than empty, as `getTmuxSessionFromCurrentClient` guarantees). -/
def envSessionOf (env : EnvSnapshot) (tmuxClientSession : Option String) : Option String :=
  if envMuxOf env = some MuxType.zellij then env.zellijSessionName
  else if envMuxOf env = some MuxType.tmux then tmuxClientSession
  else none

/-- The pure reconciliation core of `getRoutingSummary`: how `source`,
`mux`, `muxSession` and `muxPid` are computed from the environment
evidence and the ancestry evidence. -/
def getRoutingCore (env : EnvSnapshot) (tmuxClientSession : Option String)
    (ancestry : AncestryResult) : RoutingCore :=
  let envMux := envMuxOf env
  let envSession := envSessionOf env tmuxClientSession
  let srcMux : EvidenceSource × Option MuxType :=
    match envMux, ancestry.mux with
    | some e, some a =>
      if e = a then (EvidenceSource.mixed, ancestry.mux)
      else (EvidenceSource.env, some e)
    | some e, Option.none => (EvidenceSource.env, some e)
    | Option.none, some _ => (EvidenceSource.ancestry, ancestry.mux)
    | Option.none, Option.none => (EvidenceSource.none, Option.none)
  let muxSession := if truthyStr envSession then envSession else ancestry.muxSession
  { mux := srcMux.2, muxSession := muxSession, muxPid := ancestry.muxPid, source := srcMux.1 }

/-- C1 (amended): when the environment reports a multiplexer kind with a
truthy session name and ancestry reports none or a different kind, the
reconciled record has source `env`, kind and session from the
environment — but `muxPid` always carries the ancestry walk's pid, so it
is undefined exactly when ancestry found no multiplexer, not always. -/
theorem C1_env_wins_on_disagreement (env : EnvSnapshot) (tmuxClientSession : Option String)
    (ancestry : AncestryResult) (k : MuxType)
    (henv : envMuxOf env = some k)
    (hdiff : ancestry.mux ≠ some k)
    (hsess : truthyStr (envSessionOf env tmuxClientSession) = true) :
    getRoutingCore env tmuxClientSession ancestry =
      { mux := some k, muxSession := envSessionOf env tmuxClientSession,
        muxPid := ancestry.muxPid, source := EvidenceSource.env } := by
  cases hanc : ancestry.mux with
  | none => simp [getRoutingCore, henv, hanc, hsess]
  | some a =>
    have hne : ¬ (k = a) := fun h => hdiff (by rw [hanc, h])
    simp [getRoutingCore, henv, hanc, hsess, hne]

/-- C1 counterexample: ancestry = tmux (family A) with session "foo" and
pid 1; environment = zellij (family B) with session "bar".  The
reconciled record is environment-sourced with kind zellij and session
"bar", but its `muxPid` is `some 1` — not undefined as the claim
states. -/
theorem C1_muxPid_counterexample :
    detectMuxFromAncestry 10
        [{ pid := 10, ppid := 1, comm := "pi", tty := "t", args := "pi" },
         { pid := 1, ppid := 0, comm := "tmux", tty := "t", args := "tmux -t foo:0" }] =
      { mux := some MuxType.tmux, muxSession := some "foo", muxPid := some 1 }
    ∧ getRoutingCore { zellijSessionName := some "bar" } Option.none
        { mux := some MuxType.tmux, muxSession := some "foo", muxPid := some 1 } =
      { mux := some MuxType.zellij, muxSession := some "bar", muxPid := some 1,
        source := EvidenceSource.env }
    ∧ (getRoutingCore { zellijSessionName := some "bar" } Option.none
        { mux := some MuxType.tmux, muxSession := some "foo", muxPid := some 1 }).muxPid ≠
      Option.none := by decide

/-- C1 witness: the amended reconciliation rule evaluated at the
counterexample's concrete evidence. -/
theorem C1_env_wins_witness :
    getRoutingCore { zellijSessionName := some "bar" } Option.none
        { mux := some MuxType.tmux, muxSession := some "foo", muxPid := some 1 } =
      { mux := some MuxType.zellij, muxSession := some "bar", muxPid := some 1,
        source := EvidenceSource.env } :=
  C1_env_wins_on_disagreement { zellijSessionName := some "bar" } Option.none
    { mux := some MuxType.tmux, muxSession := some "foo", muxPid := some 1 }
    MuxType.zellij (by decide) (by decide) (by decide)

/-- C7: when environment and ancestry agree on the multiplexer kind the
reconciled record has source `mixed` (the specification's "both-agree"),
keeps ancestry's pid, and keeps ancestry's session name unless the
environment supplied a truthy one, which then overwrites it. -/
theorem C7_both_agree (env : EnvSnapshot) (tmuxClientSession : Option String)
    (ancestry : AncestryResult) (k : MuxType)
    (henv : envMuxOf env = some k)
    (hanc : ancestry.mux = some k) :
    (getRoutingCore env tmuxClientSession ancestry).source = EvidenceSource.mixed
    ∧ (getRoutingCore env tmuxClientSession ancestry).mux = some k
    ∧ (getRoutingCore env tmuxClientSession ancestry).muxPid = ancestry.muxPid
    ∧ (truthyStr (envSessionOf env tmuxClientSession) = true →
        (getRoutingCore env tmuxClientSession ancestry).muxSession =
          envSessionOf env tmuxClientSession)
    ∧ (truthyStr (envSessionOf env tmuxClientSession) = false →
        (getRoutingCore env tmuxClientSession ancestry).muxSession = ancestry.muxSession) := by
  refine ⟨?_, ?_, ?_, ?_, ?_⟩
  · simp [getRoutingCore, henv, hanc]
  · simp [getRoutingCore, henv, hanc]
  · simp [getRoutingCore]
  · intro h
    simp [getRoutingCore, henv, hanc, h]
  · intro h
    simp [getRoutingCore, henv, hanc, h]

/-- C7 witness: both evidences report zellij; the environment's session
name "s1" overwrites ancestry's "old", source is `mixed`, the pid is
ancestry's. -/
theorem C7_both_agree_witness :
    (getRoutingCore { zellij := some "1", zellijSessionName := some "s1" } Option.none
        { mux := some MuxType.zellij, muxSession := some "old", muxPid := some 7 }).source =
      EvidenceSource.mixed
    ∧ (getRoutingCore { zellij := some "1", zellijSessionName := some "s1" } Option.none
        { mux := some MuxType.zellij, muxSession := some "old", muxPid := some 7 }).muxPid =
      some 7
    ∧ (getRoutingCore { zellij := some "1", zellijSessionName := some "s1" } Option.none
        { mux := some MuxType.zellij, muxSession := some "old", muxPid := some 7 }).muxSession =
      some "s1" := by
  have h := C7_both_agree { zellij := some "1", zellijSessionName := some "s1" } Option.none
    { mux := some MuxType.zellij, muxSession := some "old", muxPid := some 7 }
    MuxType.zellij (by decide) (by decide)
  refine ⟨h.1, h.2.2.1, ?_⟩
  rw [h.2.2.2.1 (by decide)]
  decide

/- ### Zellij tab matcher (`getZellijRouting`, lines 467-510) -/

/-- Embeds `type ZellijTabCandidate = { index, name, paneCwd }` (1-based tab
index). -/
structure ZellijTabCandidate where
  index : Nat
  name : String
  paneCwd : String
deriving DecidableEq, Repr

/-- Node's `normalizeString`: resolve `.` and `..` segments.  `acc` holds
the segments kept so far, in reverse. -/
def normalizeSegs (allowAboveRoot : Bool) : List String → List String → List String
  | acc, [] => acc.reverse
  | acc, seg :: rest =>
    if seg = "" || seg = "." then normalizeSegs allowAboveRoot acc rest
    else if seg = ".." then
      match acc with
      | top :: acc2 =>
        if top ≠ ".." then normalizeSegs allowAboveRoot acc2 rest
        else if allowAboveRoot then normalizeSegs allowAboveRoot (".." :: top :: acc2) rest
        else normalizeSegs allowAboveRoot (top :: acc2) rest
      | [] =>
        if allowAboveRoot then normalizeSegs allowAboveRoot [".."] rest
        else normalizeSegs allowAboveRoot [] rest
    else normalizeSegs allowAboveRoot (seg :: acc) rest

/-- Embeds `s.split("/")`, keeping empty pieces. -/
def splitSlashAux : List Char → List Char → List String
  | acc, [] => [String.mk acc.reverse]
  | acc, c :: rest =>
    if c = '/' then String.mk acc.reverse :: splitSlashAux [] rest
    else splitSlashAux (c :: acc) rest

/-- Split a path on slashes. -/
def splitSlash (s : String) : List String :=
  splitSlashAux [] s.toList

/-- Join path segments with slashes. -/
def joinSlash : List String → String
  | [] => ""
  | [s] => s
  | s :: rest => s ++ "/" ++ joinSlash rest

/-- Node's `path.posix.normalize`. -/
def posixNormalize (p : String) : String :=
  if p = "" then "."
  else
    let isAbs := strStartsWith p ("/")
    let trailing := strEndsWith p ("/")
    let core := joinSlash (normalizeSegs (!isAbs) [] (splitSlash p))
    if core = "" then
      if isAbs then "/" else if trailing then "./" else "."
    else
      let core2 := if trailing then core ++ "/" else core
      if isAbs then "/" ++ core2 else core2

/-- The `normalize` closure of `getZellijRouting`:
`path.normalize(v || "").replace(/\\/g, "/").toLowerCase()`. -/
def normalizePath (v : String) : String :=
  strToLower (String.mk ((posixNormalize v).toList.map (fun c => if c = '\\' then '/' else c)))

/-- The three match tiers of `matchedTab.match`. -/
inductive TabMatchKind where
  | exact
  | suffix
  | single_candidate
deriving DecidableEq, Repr

/-- Embeds `matchedTab`: the selected candidate together with its match tier. -/
structure MatchedTab where
  index : Nat
  name : String
  paneCwd : String
  matchKind : TabMatchKind
deriving DecidableEq, Repr

/-- The value returned by `getZellijRouting` once the layout dump is in
hand: the candidate list plus the optional match. -/
structure ZellijRoutingResult where
  tabCandidates : List ZellijTabCandidate
  matchedTab : Option MatchedTab
deriving DecidableEq, Repr

/-- The exact-tier test `normalize(t.paneCwd) === cwdNorm`. -/
def zellijExactPred (cwdNorm : String) (t : ZellijTabCandidate) : Bool :=
  normalizePath t.paneCwd = cwdNorm

/-- The suffix-tier test
`paneNorm.length > 0 && (cwdNorm === paneNorm || cwdNorm.endsWith("/" + paneNorm))`. -/
def zellijSuffixPred (cwdNorm : String) (t : ZellijTabCandidate) : Bool :=
  normalizePath t.paneCwd ≠ "" &&
    (cwdNorm = normalizePath t.paneCwd ||
      strEndsWith cwdNorm ("/" ++ normalizePath t.paneCwd))

/-- The matching part of `getZellijRouting` (after the external layout
dump has been parsed into `tabCandidates`). -/
def matchZellijTabs (tabCandidates : List ZellijTabCandidate) (cwd : String) : ZellijRoutingResult :=
  if tabCandidates.length = 0 then { tabCandidates := tabCandidates, matchedTab := none }
  else
    match tabCandidates.find? (zellijExactPred (normalizePath cwd)) with
    | some t =>
      { tabCandidates := tabCandidates,
        matchedTab := some { index := t.index, name := t.name, paneCwd := t.paneCwd,
                             matchKind := TabMatchKind.exact } }
    | none =>
      match tabCandidates.find? (zellijSuffixPred (normalizePath cwd)) with
      | some t =>
        { tabCandidates := tabCandidates,
          matchedTab := some { index := t.index, name := t.name, paneCwd := t.paneCwd,
                               matchKind := TabMatchKind.suffix } }
      | none =>
        match tabCandidates with
        | [t] =>
          { tabCandidates := tabCandidates,
            matchedTab := some { index := t.index, name := t.name, paneCwd := t.paneCwd,
                                 matchKind := TabMatchKind.single_candidate } }
        | _ => { tabCandidates := tabCandidates, matchedTab := none }

/-- C2 (amended): family-B tab matching proceeds in three ordered tiers,
stopping at the first match — (a) first candidate whose normalized cwd
equals the caller's normalized cwd; (b) otherwise the first candidate
whose normalized cwd `p` is nonempty and satisfies
`cwdNorm = p` or `cwdNorm` ends with the string `"/" ++ p` (so an
absolute candidate cwd such as `/a/b` does NOT suffix-match caller
`/x/a/b`, while a relative candidate cwd such as `a/b` does);
(c) otherwise a sole candidate is selected unconditionally; and no match
is a valid outcome with the candidates still reported. -/
theorem C2_zellij_tab_tiers (cands : List ZellijTabCandidate) (cwd : String) :
    (matchZellijTabs cands cwd).tabCandidates = cands
    ∧ (∀ t, cands.find? (zellijExactPred (normalizePath cwd)) = some t →
        (matchZellijTabs cands cwd).matchedTab =
          some { index := t.index, name := t.name, paneCwd := t.paneCwd,
                 matchKind := TabMatchKind.exact })
    ∧ (cands.find? (zellijExactPred (normalizePath cwd)) = none →
        ∀ t, cands.find? (zellijSuffixPred (normalizePath cwd)) = some t →
        (matchZellijTabs cands cwd).matchedTab =
          some { index := t.index, name := t.name, paneCwd := t.paneCwd,
                 matchKind := TabMatchKind.suffix })
    ∧ (∀ t, cands = [t] →
        cands.find? (zellijExactPred (normalizePath cwd)) = none →
        cands.find? (zellijSuffixPred (normalizePath cwd)) = none →
        (matchZellijTabs cands cwd).matchedTab =
          some { index := t.index, name := t.name, paneCwd := t.paneCwd,
                 matchKind := TabMatchKind.single_candidate })
    ∧ (cands.find? (zellijExactPred (normalizePath cwd)) = none →
        cands.find? (zellijSuffixPred (normalizePath cwd)) = none →
        cands.length ≠ 1 →
        (matchZellijTabs cands cwd).matchedTab = none) := by
  refine ⟨?_, ?_, ?_, ?_, ?_⟩
  · unfold matchZellijTabs
    split
    · rfl
    · split
      · rfl
      · split
        · rfl
        · split <;> rfl
  · intro t hfind
    have hne : ¬ (cands.length = 0) := by
      intro h0
      rw [List.length_eq_zero.mp h0] at hfind
      simp at hfind
    unfold matchZellijTabs
    rw [if_neg hne, hfind]
  · intro hex t hfind
    have hne : ¬ (cands.length = 0) := by
      intro h0
      rw [List.length_eq_zero.mp h0] at hfind
      simp at hfind
    unfold matchZellijTabs
    rw [if_neg hne, hex, hfind]
  · intro t hcands hex hsuf
    subst hcands
    unfold matchZellijTabs
    rw [if_neg (by simp), hex, hsuf]
  · intro hex hsuf hlen
    unfold matchZellijTabs
    by_cases h0 : cands.length = 0
    · rw [if_pos h0]
    · rw [if_neg h0, hex, hsuf]
      cases cands with
      | nil => rfl
      | cons a rest =>
        cases rest with
        | nil => exact absurd rfl hlen
        | cons b r2 => rfl

/-- C2 counterexample: with candidates `/a` (index 1) and `/a/b` (index 2)
and caller cwd `/x/a/b` the claim predicts a suffix match at index 2, but
the code finds no match at all: `endsWith("/" + "/a/b")` would need the
caller's cwd to end in a double slash. -/
theorem C2_suffix_counterexample :
    matchZellijTabs
        [{ index := 1, name := "t1", paneCwd := "/a" },
         { index := 2, name := "t2", paneCwd := "/a/b" }] "/x/a/b" =
      { tabCandidates := [{ index := 1, name := "t1", paneCwd := "/a" },
                          { index := 2, name := "t2", paneCwd := "/a/b" }],
        matchedTab := none } := by decide

/-- C2 witness: the exact tier on the claim's first example, the suffix
tier on a relative candidate cwd, and the sole-candidate tier on the
claim's third example, all evaluated concretely through the amended
theorem. -/
theorem C2_zellij_tab_tiers_witness :
    (matchZellijTabs
        [{ index := 1, name := "t1", paneCwd := "/a" },
         { index := 2, name := "t2", paneCwd := "/a/b" }] "/a/b").matchedTab =
      some { index := 2, name := "t2", paneCwd := "/a/b", matchKind := TabMatchKind.exact }
    ∧ (matchZellijTabs
        [{ index := 1, name := "t1", paneCwd := "a/b" },
         { index := 2, name := "t2", paneCwd := "q" }] "/x/a/b").matchedTab =
      some { index := 1, name := "t1", paneCwd := "a/b", matchKind := TabMatchKind.suffix }
    ∧ (matchZellijTabs [{ index := 1, name := "z", paneCwd := "/z" }] "/unrelated").matchedTab =
      some { index := 1, name := "z", paneCwd := "/z", matchKind := TabMatchKind.single_candidate } :=
  ⟨(C2_zellij_tab_tiers
      [{ index := 1, name := "t1", paneCwd := "/a" },
       { index := 2, name := "t2", paneCwd := "/a/b" }] "/a/b").2.1
      { index := 2, name := "t2", paneCwd := "/a/b" } (by decide),
   (C2_zellij_tab_tiers
      [{ index := 1, name := "t1", paneCwd := "a/b" },
       { index := 2, name := "t2", paneCwd := "q" }] "/x/a/b").2.2.1
      (by decide) { index := 1, name := "t1", paneCwd := "a/b" } (by decide),
   (C2_zellij_tab_tiers [{ index := 1, name := "z", paneCwd := "/z" }] "/unrelated").2.2.2.1
      { index := 1, name := "z", paneCwd := "/z" } rfl (by decide) (by decide)⟩

/- ### Fleet aggregator (the unnamed aggregator script) -/

/-- Embeds `type ContextPressure`. -/
inductive ContextPressure where
  | normal
  | approaching_limit
  | near_limit
  | at_limit
deriving DecidableEq, Repr

/-- The `context` sub-object of a persisted record, as far as the
aggregator reads it.  `percent = none` models a missing or non-numeric
`percent` field. -/
structure CtxInfo where
  percent : Option Int := none
  closeToLimit : Bool := false
  nearLimit : Bool := false
  pressure : Option ContextPressure := none
deriving DecidableEq, Repr

/-- The fields of a parsed telemetry file that the aggregator reads.
`none` throughout models a missing field (or missing parent object). -/
structure RawRecord where
  schemaVersion : Option Int := none
  pid : Option Int := none
  updatedAt : Option Int := none
  activity : Option Activity := none
  sessionId : Option String := none
  sessionName : Option String := none
  sessionFile : Option String := none
  cwd : Option String := none
  ctx : Option CtxInfo := none
deriving DecidableEq, Repr

/-- One directory entry: a file name and its parse result.
`content = none` models a file that cannot be read or whose text fails
`JSON.parse` (`readJson` returns `undefined` for both). -/
structure TelemetryFile where
  name : String
  content : Option RawRecord := none
deriving DecidableEq, Repr

/-- JavaScript truthiness of the raw `process.pid` field as the schema
check `data.process?.pid` evaluates it: missing and `0` are falsy. -/
def jsTruthyNum : Option Int → Bool
  | some n => n ≠ 0
  | none => false

/-- Embeds `normalizeInstance(data)`: require `schemaVersion === 2` and a truthy
`process.pid`. -/
def normalizeInstance (data : Option RawRecord) : Option RawRecord :=
  match data with
  | none => none
  | some d => if d.schemaVersion = some 2 && jsTruthyNum d.pid then some d else none

/-- Embeds `isPidAlive(pid)`: non-positive pids are dead without probing; `probe`
is the outcome of the `process.kill(pid, 0)` liveness signal. -/
def isPidAlive (probe : Int → Bool) (pid : Int) : Bool :=
  if pid ≤ 0 then false else probe pid

/-- The staleness classification
`!Number.isFinite(updatedAt) || now - updatedAt > staleMs`. -/
def staleOf (now staleMs : Int) (updatedAt : Option Int) : Bool :=
  match updatedAt with
  | none => true
  | some u => decide (now - u > staleMs)

/-- The `telemetry` annotation attached to each kept record. -/
structure TelemetryMeta where
  alive : Bool
  stale : Bool
  ageMs : Option Int
deriving DecidableEq, Repr

/-- A kept record: the parsed data plus its `telemetry` annotation. -/
structure Inst where
  data : RawRecord
  telemetry : TelemetryMeta
deriving DecidableEq, Repr

/-- Embeds `Number(data.process?.pid)` of a kept record (after `normalizeInstance`
the pid is present and nonzero, so the default never shows through). -/
def instPid (i : Inst) : Int :=
  i.data.pid.getD 0

/-- Directory listing plus the `.endsWith(".json")` filter; a missing
directory (`readdirSync` throwing) yields the empty list. -/
def candidateFiles (dir : Option (List TelemetryFile)) : List TelemetryFile :=
  match dir with
  | none => []
  | some fs => fs.filter (fun f => strEndsWith f.name (".json"))

/-- The `instances` array: each candidate file parsed and validated
independently, skipped entirely when `normalizeInstance` rejects it,
and annotated with `alive`, `stale` and `ageMs` otherwise. -/
def instancesOf (probe : Int → Bool) (now staleMs : Int)
    (files : List TelemetryFile) : List Inst :=
  files.filterMap fun f =>
    match normalizeInstance f.content with
    | none => none
    | some d =>
      some { data := d,
             telemetry := { alive := isPidAlive probe (d.pid.getD 0),
                            stale := staleOf now staleMs d.updatedAt,
                            ageMs := d.updatedAt.map (fun u => now - u) } }

/-- The qualifying set `instances.filter((i) => i.telemetry.alive && !i.telemetry.stale)`
before sorting. -/
def qualifying (probe : Int → Bool) (now staleMs : Int)
    (files : List TelemetryFile) : List Inst :=
  (instancesOf probe now staleMs files).filter
    (fun i => i.telemetry.alive && !i.telemetry.stale)

/-- The `active` array: the qualifying set sorted ascending by pid.
`Array.prototype.sort` is a stable sort, which determines its output
uniquely; `insertionSort` with a non-strict key comparison is that stable
sort. -/
def fleetActive (probe : Int → Bool) (now staleMs : Int)
    (files : List TelemetryFile) : List Inst :=
  List.insertionSort (fun a b => instPid a ≤ instPid b)
    (qualifying probe now staleMs files)

/-- The `counts` object. -/
structure FleetCounts where
  total : Nat
  working : Nat
  waiting_input : Nat
  unknown : Nat
deriving DecidableEq, Repr

/-- Embeds `counts` from the active array. -/
def countsOf (active : List Inst) : FleetCounts :=
  { total := active.length,
    working := (active.filter (fun i => i.data.activity == some Activity.working)).length,
    waiting_input := (active.filter (fun i => i.data.activity == some Activity.waiting_input)).length,
    unknown := (active.filter (fun i => i.data.activity == some Activity.unknown)).length }

/-- The `aggregate` verdict values. -/
inductive Verdict where
  | none
  | working
  | waiting_input
  | mixed
deriving DecidableEq, Repr

/-- The `aggregate` computation. -/
def aggregateOf (c : FleetCounts) : Verdict :=
  if c.total = 0 then Verdict.none
  else if c.working = c.total then Verdict.working
  else if c.waiting_input = c.total then Verdict.waiting_input
  else Verdict.mixed

/-- Embeds `i.context?.percent` where present and numeric. -/
def ctxPercent (i : Inst) : Option Int :=
  match i.data.ctx with
  | none => none
  | some c => c.percent

/-- The fleet-wide `context` statistics object. -/
structure ContextStats where
  reporting : Nat
  closeToLimit : Nat
  nearLimit : Nat
  atLimit : Nat
  maxPercent : Int
deriving DecidableEq, Repr

/-- The fleet-wide `context` statistics from the active array. -/
def contextStatsOf (active : List Inst) : ContextStats :=
  { reporting := (active.filter (fun i => (ctxPercent i).isSome)).length,
    closeToLimit := (active.filter (fun i =>
      match i.data.ctx with | some c => c.closeToLimit | none => false)).length,
    nearLimit := (active.filter (fun i =>
      match i.data.ctx with | some c => c.nearLimit | none => false)).length,
    atLimit := (active.filter (fun i =>
      match i.data.ctx with | some c => c.pressure == some ContextPressure.at_limit
                            | none => false)).length,
    maxPercent := active.foldl (fun mx i =>
      match ctxPercent i with
      | some p => if p > mx then p else mx
      | none => mx) 0 }

/-- Per-group activity counters. -/
structure SessionActivities where
  working : Nat
  waiting_input : Nat
  unknown : Nat
deriving DecidableEq, Repr

/-- Per-group context counters. -/
structure SessionCtx where
  closeToLimit : Nat
  nearLimit : Nat
  atLimit : Nat
  maxPercent : Int
deriving DecidableEq, Repr

/-- One group of the `sessions` object. -/
structure SessionGroup where
  sessionId : String
  name : Option String
  file : Option String
  cwd : Option String
  pids : List Int
  activities : SessionActivities
  ctx : SessionCtx
deriving DecidableEq, Repr

/-- Embeds `instance.session?.id || "unknown"`. -/
def sessionKeyOf (i : Inst) : String :=
  match i.data.sessionId with
  | some s => if s = "" then "unknown" else s
  | none => "unknown"

/-- A freshly created group, before the creating record is folded in. -/
def newGroup (key : String) (i : Inst) : SessionGroup :=
  { sessionId := key, name := i.data.sessionName, file := i.data.sessionFile,
    cwd := i.data.cwd, pids := [],
    activities := { working := 0, waiting_input := 0, unknown := 0 },
    ctx := { closeToLimit := 0, nearLimit := 0, atLimit := 0, maxPercent := 0 } }

/-- The loop body mutating one group for one record: push pid, bump the
activity bucket when recognized, bump the context counters, track the
maximum percentage. -/
def updateGroup (g : SessionGroup) (i : Inst) : SessionGroup :=
  let g1 := { g with pids := g.pids ++ [instPid i] }
  let g2 :=
    match i.data.activity with
    | some Activity.working =>
      { g1 with activities := { g1.activities with working := g1.activities.working + 1 } }
    | some Activity.waiting_input =>
      { g1 with activities := { g1.activities with waiting_input := g1.activities.waiting_input + 1 } }
    | some Activity.unknown =>
      { g1 with activities := { g1.activities with unknown := g1.activities.unknown + 1 } }
    | none => g1
  let g3 :=
    if (match i.data.ctx with | some c => c.closeToLimit | none => false) then
      { g2 with ctx := { g2.ctx with closeToLimit := g2.ctx.closeToLimit + 1 } }
    else g2
  let g4 :=
    if (match i.data.ctx with | some c => c.nearLimit | none => false) then
      { g3 with ctx := { g3.ctx with nearLimit := g3.ctx.nearLimit + 1 } }
    else g3
  let g5 :=
    if (match i.data.ctx with | some c => c.pressure == some ContextPressure.at_limit
                              | none => false) then
      { g4 with ctx := { g4.ctx with atLimit := g4.ctx.atLimit + 1 } }
    else g4
  match ctxPercent i with
  | some p => if p > g5.ctx.maxPercent then { g5 with ctx := { g5.ctx with maxPercent := p } } else g5
  | none => g5

/-- Embeds `sessions[key]` update: create the group on first sight of a key
(preserving object-key insertion order), then fold the record in. -/
def upsertSession (m : List (String × SessionGroup)) (key : String) (i : Inst) :
    List (String × SessionGroup) :=
  match m with
  | [] => [(key, updateGroup (newGroup key i) i)]
  | (k, g) :: rest =>
    if k = key then (k, updateGroup g i) :: rest
    else (k, g) :: upsertSession rest key i

/-- The `sessions` object, as its ordered key/group entries. -/
def sessionsOf (active : List Inst) : List (String × SessionGroup) :=
  active.foldl (fun m i => upsertSession m (sessionKeyOf i) i) []

/-- Embeds `instancesByPid[String(pid)] = instance`: later records with the same
pid overwrite the value but keep the key position. -/
def upsertPid (m : List (Int × Inst)) (k : Int) (v : Inst) : List (Int × Inst) :=
  match m with
  | [] => [(k, v)]
  | (k2, v2) :: rest =>
    if k2 = k then (k2, v) :: rest
    else (k2, v2) :: upsertPid rest k v

/-- The `instancesByPid` lookup, as its ordered key/value entries. -/
def instancesByPidOf (active : List Inst) : List (Int × Inst) :=
  active.foldl (fun m i => upsertPid m (instPid i) i) []

/- ### C3, C5, C8: aggregator classification and error handling -/

/-- C3 (amended): every kept record's stale flag is computed as
`missing/non-finite updatedAt, or now - updatedAt > staleMs`; the
boundary is exclusive, so a file aged exactly `staleMs` is NOT stale. -/
theorem C3_stale_boundary (probe : Int → Bool) (now staleMs : Int) (files : List TelemetryFile) :
    (∀ i ∈ instancesOf probe now staleMs files,
        i.telemetry.stale = staleOf now staleMs i.data.updatedAt)
    ∧ (∀ u : Int, staleOf now staleMs (some u) = decide (now - u > staleMs))
    ∧ (∀ u : Int, now - u = staleMs → staleOf now staleMs (some u) = false)
    ∧ staleOf now staleMs Option.none = true := by
  refine ⟨?_, fun u => rfl, ?_, rfl⟩
  · intro i hi
    obtain ⟨f, hf, hmap⟩ := List.mem_filterMap.mp hi
    cases hnorm : normalizeInstance f.content with
    | none => rw [hnorm] at hmap; cases hmap
    | some d => rw [hnorm] at hmap; cases hmap; rfl
  · intro u h
    have hno : ¬ (now - u > staleMs) := by omega
    simp [staleOf, hno]

/-- C3 counterexample: at now = 10000, staleMs = 5000, a record with
updatedAt = 5000 sits exactly at the threshold and is NOT stale — it
qualifies and is counted — contradicting the claim's assertion that a
file aged exactly at the threshold is stale. -/
theorem C3_exact_age_counterexample :
    staleOf 10000 5000 (some 5000) = false
    ∧ (countsOf (fleetActive (fun _ => true) 10000 5000
        [{ name := "7.json",
           content := some { schemaVersion := some 2, pid := some 7, updatedAt := some 5000,
                             activity := some Activity.working } }])).total = 1 := by decide

/-- C3 witness: the exclusive boundary evaluated at now = 10000,
staleMs = 5000, updatedAt = 5000. -/
theorem C3_stale_boundary_witness :
    staleOf 10000 5000 (some 5000) = false :=
  (C3_stale_boundary (fun _ => true) 10000 5000 []).2.2.1 5000 (by decide)

theorem aggregateOf_countsOf_spec (l : List Inst) :
    (l = [] → aggregateOf (countsOf l) = Verdict.none)
    ∧ (l ≠ [] → (∀ i ∈ l, i.data.activity = some Activity.working) →
        aggregateOf (countsOf l) = Verdict.working)
    ∧ (l ≠ [] → (∀ i ∈ l, i.data.activity = some Activity.waiting_input) →
        aggregateOf (countsOf l) = Verdict.waiting_input)
    ∧ (l ≠ [] → (∃ i ∈ l, i.data.activity ≠ some Activity.working) →
        (∃ i ∈ l, i.data.activity ≠ some Activity.waiting_input) →
        aggregateOf (countsOf l) = Verdict.mixed) := by
  have h0iff : (countsOf l).total = 0 ↔ l = [] := List.length_eq_zero
  refine ⟨?_, ?_, ?_, ?_⟩
  · intro h
    subst h
    rfl
  · intro hne hall
    have h0 : ¬ ((countsOf l).total = 0) := fun h => hne (h0iff.mp h)
    have hW : (countsOf l).working = (countsOf l).total :=
      List.filter_length_eq_length.mpr (fun i hi => by simp [hall i hi])
    unfold aggregateOf
    rw [if_neg h0, if_pos hW]
  · intro hne hall
    have h0 : ¬ ((countsOf l).total = 0) := fun h => hne (h0iff.mp h)
    have hWne : ¬ ((countsOf l).working = (countsOf l).total) := by
      intro heq
      obtain ⟨i, hi⟩ := List.exists_mem_of_ne_nil l hne
      have hthis := List.filter_length_eq_length.mp heq i hi
      simp [hall i hi] at hthis
    have hWI : (countsOf l).waiting_input = (countsOf l).total :=
      List.filter_length_eq_length.mpr (fun i hi => by simp [hall i hi])
    unfold aggregateOf
    rw [if_neg h0, if_neg hWne, if_pos hWI]
  · intro hne hexW hexWI
    have h0 : ¬ ((countsOf l).total = 0) := fun h => hne (h0iff.mp h)
    have hWne : ¬ ((countsOf l).working = (countsOf l).total) := by
      intro heq
      obtain ⟨i, hi, hni⟩ := hexW
      have hthis := List.filter_length_eq_length.mp heq i hi
      simp at hthis
      exact hni hthis
    have hWIne : ¬ ((countsOf l).waiting_input = (countsOf l).total) := by
      intro heq
      obtain ⟨i, hi, hni⟩ := hexWI
      have hthis := List.filter_length_eq_length.mp heq i hi
      simp at hthis
      exact hni hthis
    unfold aggregateOf
    rw [if_neg h0, if_neg hWne, if_neg hWIne]

/-- C5: over the qualifying set the aggregate verdict is `none` when the
set is empty, `working` when every member works, `waiting_input` when
every member waits, and `mixed` otherwise. -/
theorem C5_aggregate_verdict (probe : Int → Bool) (now staleMs : Int)
    (files : List TelemetryFile) :
    (fleetActive probe now staleMs files = [] →
      aggregateOf (countsOf (fleetActive probe now staleMs files)) = Verdict.none)
    ∧ (fleetActive probe now staleMs files ≠ [] →
        (∀ i ∈ fleetActive probe now staleMs files,
          i.data.activity = some Activity.working) →
        aggregateOf (countsOf (fleetActive probe now staleMs files)) = Verdict.working)
    ∧ (fleetActive probe now staleMs files ≠ [] →
        (∀ i ∈ fleetActive probe now staleMs files,
          i.data.activity = some Activity.waiting_input) →
        aggregateOf (countsOf (fleetActive probe now staleMs files)) = Verdict.waiting_input)
    ∧ (fleetActive probe now staleMs files ≠ [] →
        (∃ i ∈ fleetActive probe now staleMs files,
          i.data.activity ≠ some Activity.working) →
        (∃ i ∈ fleetActive probe now staleMs files,
          i.data.activity ≠ some Activity.waiting_input) →
        aggregateOf (countsOf (fleetActive probe now staleMs files)) = Verdict.mixed) :=
  aggregateOf_countsOf_spec (fleetActive probe now staleMs files)

/-- C5 witness: three live, fresh records with activities working,
working, waiting_input aggregate to `mixed`. -/
theorem C5_aggregate_verdict_witness :
    aggregateOf (countsOf (fleetActive (fun _ => true) 0 10000
      [{ name := "5.json",
         content := some { schemaVersion := some 2, pid := some 5, updatedAt := some 0,
                           activity := some Activity.working } },
       { name := "6.json",
         content := some { schemaVersion := some 2, pid := some 6, updatedAt := some 0,
                           activity := some Activity.working } },
       { name := "7.json",
         content := some { schemaVersion := some 2, pid := some 7, updatedAt := some 0,
                           activity := some Activity.waiting_input } }])) = Verdict.mixed :=
  (C5_aggregate_verdict (fun _ => true) 0 10000
      [{ name := "5.json",
         content := some { schemaVersion := some 2, pid := some 5, updatedAt := some 0,
                           activity := some Activity.working } },
       { name := "6.json",
         content := some { schemaVersion := some 2, pid := some 6, updatedAt := some 0,
                           activity := some Activity.working } },
       { name := "7.json",
         content := some { schemaVersion := some 2, pid := some 7, updatedAt := some 0,
                           activity := some Activity.waiting_input } }]).2.2.2
    (by decide) (by decide) (by decide)

theorem normalizeInstance_none_iff (d : RawRecord) :
    normalizeInstance (some d) = none ↔
      (d.schemaVersion ≠ some 2 ∨ d.pid = none ∨ d.pid = some 0) := by
  by_cases h1 : d.schemaVersion = some 2
  · cases hp : d.pid with
    | none => simp [normalizeInstance, jsTruthyNum, h1, hp]
    | some n =>
      by_cases hn : n = 0
      · simp [normalizeInstance, jsTruthyNum, h1, hp, hn]
      · simp [normalizeInstance, jsTruthyNum, h1, hp, hn]
  · simp [normalizeInstance, h1]

/-- C8 (amended): a candidate file is skipped exactly when it cannot be
read or parsed, lacks `schemaVersion = 2`, or lacks a TRUTHY `process.pid`
(so a record whose pid is the number 0 is skipped even though 0 is
numeric); a skipped file never affects the rest of the pass; and a
missing telemetry directory yields `counts.total = 0` and
`aggregate = "none"` rather than an error. -/
theorem C8_skip_and_missing_dir (probe : Int → Bool) (now staleMs : Int) :
    (∀ f : TelemetryFile, instancesOf probe now staleMs [f] = [] ↔
        (f.content = none ∨ ∃ d, f.content = some d ∧
          (d.schemaVersion ≠ some 2 ∨ d.pid = none ∨ d.pid = some 0)))
    ∧ (∀ (pre post : List TelemetryFile) (f : TelemetryFile),
        instancesOf probe now staleMs [f] = [] →
        instancesOf probe now staleMs (pre ++ f :: post) =
          instancesOf probe now staleMs (pre ++ post))
    ∧ (countsOf (fleetActive probe now staleMs (candidateFiles Option.none))).total = 0
    ∧ aggregateOf (countsOf (fleetActive probe now staleMs (candidateFiles Option.none))) =
        Verdict.none := by
  refine ⟨?_, ?_, rfl, rfl⟩
  · intro f
    cases hc : f.content with
    | none =>
      constructor
      · intro _
        exact Or.inl rfl
      · intro _
        simp [instancesOf, List.filterMap_cons, hc, normalizeInstance]
    | some d =>
      constructor
      · intro h
        refine Or.inr ⟨d, rfl, ?_⟩
        rw [← normalizeInstance_none_iff d]
        cases hnorm : normalizeInstance (some d) with
        | none => rfl
        | some d2 =>
          have hne : instancesOf probe now staleMs [f] ≠ [] := by
            unfold instancesOf
            simp [List.filterMap_cons, hc, hnorm]
          exact absurd h hne
      · intro h
        rcases h with h | ⟨d2, hd2, hcond⟩
        · cases h
        · cases hd2
          have hnorm : normalizeInstance (some d) = none :=
            (normalizeInstance_none_iff d).mpr hcond
          simp [instancesOf, List.filterMap_cons, hc, hnorm]
  · intro pre post f h
    unfold instancesOf at h ⊢
    cases hnorm : normalizeInstance f.content with
    | some d =>
      simp [List.filterMap_cons, hnorm] at h
    | none =>
      rw [List.filterMap_append, List.filterMap_append, List.filterMap_cons]
      simp [hnorm]

/-- C8 counterexample: a perfectly parseable record with schema version 2
and the numeric process id 0 is skipped by the aggregator, contradicting
the claim that exactly the files lacking a numeric process id (or schema
version, or parse) are skipped. -/
theorem C8_pid_zero_counterexample :
    ({ schemaVersion := some 2, pid := some 0, updatedAt := some 0 } : RawRecord).pid = some 0
    ∧ normalizeInstance (some { schemaVersion := some 2, pid := some 0, updatedAt := some 0 }) =
        none
    ∧ instancesOf (fun _ => true) 0 10000
        [{ name := "0.json",
           content := some { schemaVersion := some 2, pid := some 0, updatedAt := some 0 } }] =
        [] := by decide

/-- C8 witness: an invalid file (wrong schema version) sandwiched among
valid ones is skipped without disturbing the rest of the pass, and the
missing-directory outcome is `total = 0`, `aggregate = none`. -/
theorem C8_skip_witness :
    instancesOf (fun _ => true) 0 10000
        ([] ++ ({ name := "a.json", content := some { schemaVersion := some 3, pid := some 4 } } :
            TelemetryFile) ::
          [{ name := "b.json",
             content := some { schemaVersion := some 2, pid := some 4, updatedAt := some 0,
                               activity := some Activity.working } }]) =
      instancesOf (fun _ => true) 0 10000
        ([] ++ [{ name := "b.json",
                  content := some { schemaVersion := some 2, pid := some 4, updatedAt := some 0,
                                    activity := some Activity.working } }])
    ∧ aggregateOf (countsOf (fleetActive (fun _ => true) 0 10000
        (candidateFiles Option.none))) = Verdict.none :=
  ⟨(C8_skip_and_missing_dir (fun _ => true) 0 10000).2.1 []
      [{ name := "b.json",
         content := some { schemaVersion := some 2, pid := some 4, updatedAt := some 0,
                           activity := some Activity.working } }]
      { name := "a.json", content := some { schemaVersion := some 3, pid := some 4 } }
      ((C8_skip_and_missing_dir (fun _ => true) 0 10000).1
          { name := "a.json", content := some { schemaVersion := some 3, pid := some 4 } } |>.mpr
        (Or.inr ⟨{ schemaVersion := some 3, pid := some 4 }, rfl, Or.inl (by decide)⟩)),
   (C8_skip_and_missing_dir (fun _ => true) 0 10000).2.2.2⟩

/- ### C9: enumeration-order invariance -/

theorem sorted_strict_of_sorted_nodup (l : List Inst)
    (hs : List.Sorted (fun a b => instPid a ≤ instPid b) l)
    (hn : (l.map instPid).Nodup) :
    List.Sorted (fun a b => instPid a < instPid b) l := by
  have hpn : l.Pairwise (fun a b => instPid a ≠ instPid b) := List.pairwise_map.mp hn
  exact (hs.and hpn).imp (fun h => lt_of_le_of_ne h.1 h.2)

/-- C9 (amended): when the qualifying records carry pairwise distinct
process ids, file-system enumeration order does not affect the sorted
`instances` array, the counts, the fleet context statistics, the
`sessions` grouping or the pid-keyed lookup.  (With duplicate pids the
stable sort preserves enumeration order among equal keys, so the outputs
can differ; see the counterexample.) -/
theorem C9_order_invariance (probe : Int → Bool) (now staleMs : Int)
    (files1 files2 : List TelemetryFile)
    (hperm : files1.Perm files2)
    (hnodup : ((fleetActive probe now staleMs files1).map instPid).Nodup) :
    fleetActive probe now staleMs files1 = fleetActive probe now staleMs files2
    ∧ countsOf (fleetActive probe now staleMs files1) =
        countsOf (fleetActive probe now staleMs files2)
    ∧ contextStatsOf (fleetActive probe now staleMs files1) =
        contextStatsOf (fleetActive probe now staleMs files2)
    ∧ sessionsOf (fleetActive probe now staleMs files1) =
        sessionsOf (fleetActive probe now staleMs files2)
    ∧ instancesByPidOf (fleetActive probe now staleMs files1) =
        instancesByPidOf (fleetActive probe now staleMs files2) := by
  haveI hTot : IsTotal Inst (fun a b => instPid a ≤ instPid b) := ⟨fun a b => le_total _ _⟩
  haveI hTrans : IsTrans Inst (fun a b => instPid a ≤ instPid b) :=
    ⟨fun a b c h1 h2 => le_trans h1 h2⟩
  have hq : (qualifying probe now staleMs files1).Perm (qualifying probe now staleMs files2) :=
    (hperm.filterMap _).filter _
  have hsorted1 : List.Sorted (fun a b => instPid a ≤ instPid b)
      (fleetActive probe now staleMs files1) := List.sorted_insertionSort _ _
  have hsorted2 : List.Sorted (fun a b => instPid a ≤ instPid b)
      (fleetActive probe now staleMs files2) := List.sorted_insertionSort _ _
  have hp : (fleetActive probe now staleMs files1).Perm (fleetActive probe now staleMs files2) :=
    ((List.perm_insertionSort _ _).trans hq).trans (List.perm_insertionSort _ _).symm
  have hnodup2 : ((fleetActive probe now staleMs files2).map instPid).Nodup :=
    (hp.map instPid).nodup_iff.mp hnodup
  have hstrict1 := sorted_strict_of_sorted_nodup _ hsorted1 hnodup
  have hstrict2 := sorted_strict_of_sorted_nodup _ hsorted2 hnodup2
  haveI : IsAntisymm Inst (fun a b => instPid a < instPid b) :=
    ⟨fun a b h1 h2 => absurd h2 (lt_asymm h1)⟩
  have heq : fleetActive probe now staleMs files1 = fleetActive probe now staleMs files2 :=
    List.eq_of_perm_of_sorted hp hstrict1 hstrict2
  exact ⟨heq, by rw [heq], by rw [heq], by rw [heq], by rw [heq]⟩

/-- Two telemetry files carrying the SAME process id 5 with different
activities (possible on disk: the pid in the content need not match the
file name). -/
def c9dupA : TelemetryFile :=
  { name := "5.json",
    content := some { schemaVersion := some 2, pid := some 5, updatedAt := some 0,
                      activity := some Activity.working, sessionId := some "s1" } }

/-- Companion file with the same pid but a different activity. -/
def c9dupB : TelemetryFile :=
  { name := "7.json",
    content := some { schemaVersion := some 2, pid := some 5, updatedAt := some 0,
                      activity := some Activity.waiting_input, sessionId := some "s1" } }

/-- C9 counterexample: with two qualifying files that carry the same
process id, swapping the enumeration order changes both the sorted
`instances` array (the stable sort keeps input order among equal keys)
and the pid-keyed lookup (last writer wins), refuting the claim's
"including when two files carry the same process id". -/
theorem C9_duplicate_pid_counterexample :
    List.Perm [c9dupA, c9dupB] [c9dupB, c9dupA]
    ∧ fleetActive (fun _ => true) 0 10000 [c9dupA, c9dupB] ≠
        fleetActive (fun _ => true) 0 10000 [c9dupB, c9dupA]
    ∧ instancesByPidOf (fleetActive (fun _ => true) 0 10000 [c9dupA, c9dupB]) ≠
        instancesByPidOf (fleetActive (fun _ => true) 0 10000 [c9dupB, c9dupA]) :=
  ⟨List.Perm.swap c9dupB c9dupA [], by decide, by decide⟩

/-- A qualifying file with pid 5, for the C9 witness. -/
def c9sepA : TelemetryFile :=
  { name := "5.json",
    content := some { schemaVersion := some 2, pid := some 5, updatedAt := some 0,
                      activity := some Activity.working, sessionId := some "s1" } }

/-- A qualifying file with pid 7, for the C9 witness. -/
def c9sepB : TelemetryFile :=
  { name := "7.json",
    content := some { schemaVersion := some 2, pid := some 7, updatedAt := some 0,
                      activity := some Activity.waiting_input, sessionId := some "s1" } }

/-- C9 witness: with distinct pids 5 and 7 the two enumeration orders give
the same sorted array. -/
theorem C9_order_invariance_witness :
    fleetActive (fun _ => true) 0 10000 [c9sepA, c9sepB] =
      fleetActive (fun _ => true) 0 10000 [c9sepB, c9sepA] :=
  (C9_order_invariance (fun _ => true) 0 10000 [c9sepA, c9sepB] [c9sepB, c9sepA]
    (List.Perm.swap c9sepB c9sepA []) (by decide)).1

/- ### C10: heartbeat republishing (`startHeartbeat`, lines 673-692) -/

/-- Embeds `workspace.git`. -/
structure GitInfo where
  branch : Option String := none
  commit : Option String := none
deriving DecidableEq, Repr

/-- Embeds `InstanceSnapshot.process`. -/
structure ProcessInfo where
  pid : Int
  ppid : Int
  startedAt : Int
  updatedAt : Int
  uptimeMs : Int
  heartbeatSeq : Int
  heartbeatMs : Int
deriving DecidableEq, Repr

/-- Embeds `InstanceSnapshot.system`. -/
structure SystemInfo where
  host : String
  user : String
  platform : String
  arch : String
  nodeVersion : String
deriving DecidableEq, Repr

/-- Embeds `InstanceSnapshot.workspace`. -/
structure WorkspaceInfo where
  cwd : String
  git : Option GitInfo := none
deriving DecidableEq, Repr

/-- Embeds `InstanceSnapshot.session`. -/
structure SessionInfo where
  id : String
  file : Option String := none
  name : Option String := none
deriving DecidableEq, Repr

/-- Embeds `InstanceSnapshot.model`. -/
structure ModelInfo where
  provider : Option String := none
  id : Option String := none
  name : Option String := none
  thinkingLevel : Option String := none
deriving DecidableEq, Repr

/-- Embeds `InstanceSnapshot.state`. -/
structure StateInfo where
  activity : Activity
  isIdle : Bool
  hasPendingMessages : Bool
  waitingForInput : Bool
  busy : Bool
deriving DecidableEq, Repr

/-- Embeds `InstanceSnapshot.context` as the writer produces it. -/
structure ContextSummary where
  tokens : Option Int := none
  contextWindow : Int
  percent : Option Int := none
  remainingTokens : Option Int := none
  remainingPercent : Option Int := none
  pressure : ContextPressure
  closeToLimit : Bool
  nearLimit : Bool
deriving DecidableEq, Repr

/-- Embeds `InstanceSnapshot.messages`. -/
structure MessagesInfo where
  lastAssistantText : Option String := none
  lastAssistantHtml : Option String := none
  lastAssistantUpdatedAt : Int
deriving DecidableEq, Repr

/-- Embeds `InstanceSnapshot.capabilities`. -/
structure CapabilitiesInfo where
  hasUI : Bool
deriving DecidableEq, Repr

/-- The persisted `InstanceSnapshot` record.  The routing field is carried
at the granularity of the reconciled core, which is all the heartbeat
frame property needs. -/
structure InstanceSnapshot where
  schemaVersion : Int
  source : String
  process : ProcessInfo
  system : SystemInfo
  workspace : WorkspaceInfo
  session : SessionInfo
  model : Option ModelInfo := none
  state : StateInfo
  context : Option ContextSummary := none
  routing : Option RoutingCore := none
  capabilities : CapabilitiesInfo
  messages : Option MessagesInfo := none
  lastEvent : String
deriving DecidableEq, Repr

/-- The extension's mutable state: the `heartbeatSeq` counter, the
`lastSnapshot` cache, and the chronological log of `atomicWriteJson`
calls. -/
structure TelemetryState where
  heartbeatSeq : Int
  lastSnapshot : Option InstanceSnapshot
  writes : List InstanceSnapshot
deriving Repr

/-- The two events that publish telemetry: a lifecycle `publish`
(carrying the freshly assembled snapshot) and a heartbeat timer `tick`. -/
inductive TelemetryEv where
  | publish (snap : InstanceSnapshot)
  | tick (now : Int)
deriving Repr

/-- Is the event a heartbeat tick? -/
def TelemetryEv.isTick : TelemetryEv → Bool
  | TelemetryEv.tick _ => true
  | TelemetryEv.publish _ => false

/-- The republished snapshot of one heartbeat tick: the cached snapshot
with only `updatedAt`, `uptimeMs` and `heartbeatSeq` replaced
(the `{ ...lastSnapshot, process: { ...lastSnapshot.process, ... } }`
spread). -/
def heartbeatNext (startedAt seq : Int) (s : InstanceSnapshot) (now : Int) : InstanceSnapshot :=
  { s with
    process := { s.process with
                 updatedAt := now, uptimeMs := now - startedAt, heartbeatSeq := seq } }

/-- One event step.  `publish` mirrors `publish()`: bump the counter,
store and write the fresh snapshot (whose `heartbeatSeq` embeds the
counter).  `tick` mirrors the `setInterval` callback of
`startHeartbeat()`: if no snapshot was ever published, do nothing;
otherwise bump the counter and republish the cached snapshot with only
`updatedAt`, `uptimeMs` and `heartbeatSeq` replaced. -/
def stepTelemetry (startedAt : Int) (st : TelemetryState) : TelemetryEv → TelemetryState
  | TelemetryEv.publish snap =>
    let seq := st.heartbeatSeq + 1
    let s := { snap with process := { snap.process with heartbeatSeq := seq } }
    { heartbeatSeq := seq, lastSnapshot := some s, writes := st.writes ++ [s] }
  | TelemetryEv.tick now =>
    match st.lastSnapshot with
    | none => st
    | some s =>
      let seq := st.heartbeatSeq + 1
      let next := heartbeatNext startedAt seq s now
      { heartbeatSeq := seq, lastSnapshot := some next, writes := st.writes ++ [next] }

/-- Run a sequence of events from the initial state (counter 0, no
snapshot, no writes). -/
def runTelemetry (startedAt : Int) (evs : List TelemetryEv) : TelemetryState :=
  evs.foldl (stepTelemetry startedAt) { heartbeatSeq := 0, lastSnapshot := none, writes := [] }

/-- C10: heartbeat ticks never write before the first lifecycle publish
(a trace of ticks alone produces no writes and leaves the state
untouched), and a tick taken with a cached snapshot writes exactly one
record that agrees with the cache on routing, state, context, session,
workspace, messages, model, system, capabilities, lastEvent and the
fixed process fields, changing only `updatedAt`, `uptimeMs` and
`heartbeatSeq`. -/
theorem C10_heartbeat_frame (startedAt : Int) :
    (∀ evs : List TelemetryEv, (∀ e ∈ evs, e.isTick = true) →
        (runTelemetry startedAt evs).writes = [])
    ∧ (∀ (st : TelemetryState) (s : InstanceSnapshot) (now : Int),
        st.lastSnapshot = some s →
        ∃ n : InstanceSnapshot,
          (stepTelemetry startedAt st (TelemetryEv.tick now)).writes = st.writes ++ [n]
          ∧ (stepTelemetry startedAt st (TelemetryEv.tick now)).lastSnapshot = some n
          ∧ n.routing = s.routing ∧ n.state = s.state ∧ n.context = s.context
          ∧ n.session = s.session ∧ n.workspace = s.workspace ∧ n.messages = s.messages
          ∧ n.model = s.model ∧ n.system = s.system ∧ n.capabilities = s.capabilities
          ∧ n.lastEvent = s.lastEvent ∧ n.schemaVersion = s.schemaVersion
          ∧ n.source = s.source
          ∧ n.process.pid = s.process.pid ∧ n.process.ppid = s.process.ppid
          ∧ n.process.startedAt = s.process.startedAt
          ∧ n.process.heartbeatMs = s.process.heartbeatMs
          ∧ n.process.updatedAt = now
          ∧ n.process.uptimeMs = now - startedAt
          ∧ n.process.heartbeatSeq = st.heartbeatSeq + 1)
    ∧ (∀ (st : TelemetryState) (now : Int),
        st.lastSnapshot = none → stepTelemetry startedAt st (TelemetryEv.tick now) = st) := by
  have hnostep : ∀ (st : TelemetryState) (now : Int),
      st.lastSnapshot = none → stepTelemetry startedAt st (TelemetryEv.tick now) = st := by
    intro st now hnone
    unfold stepTelemetry
    rw [hnone]
  refine ⟨?_, ?_, hnostep⟩
  · have h : ∀ (evs : List TelemetryEv) (st : TelemetryState),
        (∀ e ∈ evs, e.isTick = true) → st.lastSnapshot = none →
          evs.foldl (stepTelemetry startedAt) st = st := by
      intro evs
      induction evs with
      | nil => intro st _ _; rfl
      | cons e rest ih =>
        intro st hticks hnone
        cases e with
        | publish snap =>
          have hx := hticks (TelemetryEv.publish snap) (List.mem_cons_self _ _)
          simp [TelemetryEv.isTick] at hx
        | tick now =>
          rw [List.foldl_cons, hnostep st now hnone]
          exact ih st (fun e2 he2 => hticks e2 (List.mem_cons_of_mem _ he2)) hnone
    intro evs hticks
    rw [runTelemetry, h evs _ hticks rfl]
  · intro st s now hs
    have hstep : stepTelemetry startedAt st (TelemetryEv.tick now) =
        { heartbeatSeq := st.heartbeatSeq + 1,
          lastSnapshot := some (heartbeatNext startedAt (st.heartbeatSeq + 1) s now),
          writes := st.writes ++ [heartbeatNext startedAt (st.heartbeatSeq + 1) s now] } := by
      unfold stepTelemetry
      rw [hs]
    exact ⟨heartbeatNext startedAt (st.heartbeatSeq + 1) s now,
      by rw [hstep], by rw [hstep], rfl, rfl, rfl, rfl, rfl, rfl, rfl, rfl, rfl, rfl, rfl, rfl,
      rfl, rfl, rfl, rfl, rfl, rfl, rfl⟩

/-- C10 witness: a trace of two bare ticks writes nothing, and a tick on
a state with no cached snapshot is a no-op. -/
theorem C10_heartbeat_frame_witness :
    (runTelemetry 0 [TelemetryEv.tick 5, TelemetryEv.tick 6]).writes = []
    ∧ stepTelemetry 0 { heartbeatSeq := 3, lastSnapshot := none, writes := [] }
        (TelemetryEv.tick 9) =
      { heartbeatSeq := 3, lastSnapshot := none, writes := [] } :=
  ⟨(C10_heartbeat_frame 0).1 [TelemetryEv.tick 5, TelemetryEv.tick 6] (by decide),
   (C10_heartbeat_frame 0).2.2 { heartbeatSeq := 3, lastSnapshot := none, writes := [] } 9 rfl⟩
